import Mathlib

/-!
Shallow embedding of the souls-arena game (src/App.tsx, src/types.ts,
src/constants.ts).  JS numbers are modelled as `ℤ` for stats, souls and
costs and as `ℚ` wherever the source multiplies by fractional literals
(0.5, 0.8, 1.5, 0.01, …) or divides; `Math.floor` is `Rat.floor`,
`Math.max` is `max`.  The two sources of randomness inside `executeTurn`
(weapon choice and the crit draw) are passed in as explicit parameters.
-/

namespace SoulsArena

/-- `ItemType` enum from src/types.ts. -/
inductive ItemType
  | WEAPON
  | ARMOR
  | ACCESSORY
  | SPELL
deriving DecidableEq, Repr

/-- `Stats` record from src/types.ts; the source field `def` is spelled
`defense` here because `def` is a Lean keyword. -/
structure Stats where
  hp : ℤ
  str : ℤ
  dex : ℤ
  int : ℤ
  defense : ℤ
  poise : ℤ
deriving DecidableEq, Repr

/-- The optional `scaling` record of an `Item` (src/types.ts).  An absent
coefficient behaves as 0 in the damage formula (`if (s.str) …` skips only
falsy values, and a 0 coefficient contributes 0 damage), so absent
coefficients are embedded as 0. -/
structure ScalingCoeffs where
  str : ℚ
  dex : ℚ
  int : ℚ
deriving DecidableEq, Repr

/-- `Item` from src/types.ts.  `stats` is `Partial<Stats>` in the source;
absent bonuses are embedded as 0 (the `if (item.stats.hp) …` falsy guards
in `calculateStats` skip only 0/undefined contributions, which add 0). -/
structure Item where
  id : String
  name : String
  type : ItemType
  cost : ℤ
  description : String
  stats : Stats
  scaling : ScalingCoeffs
deriving DecidableEq, Repr

/-- `Player` from src/types.ts. -/
structure Player where
  id : String
  name : String
  isAi : Bool
  souls : ℤ
  inventory : List Item
  currentStats : Stats
  wins : ℕ
  isReady : Bool
deriving DecidableEq, Repr

/-- `GamePhase` enum from src/types.ts. -/
inductive GamePhase
  | LOGIN
  | LOBBY
  | WAITING_FOR_OPPONENT
  | SHOP
  | BATTLE
  | ROUND_RESULT
  | GAME_OVER
deriving DecidableEq, Repr

/-- `CombatLog` from src/types.ts. -/
structure CombatLog where
  turn : ℕ
  attacker : String
  target : String
  damage : ℤ
  action : String
  isCrit : Bool
deriving DecidableEq, Repr

/-- `GameState` from src/types.ts. -/
structure GameState where
  phase : GamePhase
  round : ℕ
  maxRounds : ℕ
  roomCode : Option String
  players : List Player
  logs : List CombatLog
  currentTurnIndex : ℕ
  roundWinnerId : Option String
  gameWinnerId : Option String
deriving DecidableEq, Repr

/-! ### Constants (src/constants.ts) -/

def INITIAL_SOULS : ℤ := 3000

def ROUND_WIN_BONUS : ℤ := 2000

def ROUND_LOSS_BONUS : ℤ := 1000

def MAX_ROUNDS : ℕ := 3

/-- `INVENTORY_LIMITS` from src/constants.ts: max quantity per item type. -/
def INVENTORY_LIMITS : ItemType → ℕ
  | .WEAPON => 2
  | .ARMOR => 1
  | .ACCESSORY => 4
  | .SPELL => 2

def BASE_STATS : Stats := ⟨100, 10, 10, 10, 0, 0⟩

/-- zero item-stat bonus (absent `Partial<Stats>` fields). -/
def st0 : Stats := ⟨0, 0, 0, 0, 0, 0⟩

/-- zero scaling record (absent `scaling` field). -/
def sc0 : ScalingCoeffs := ⟨0, 0, 0⟩

/-! The shop catalog `SHOP_ITEMS` from src/constants.ts, one named
definition per item. -/

def w_longsword : Item :=
  ⟨"w_longsword", "长剑", .WEAPON, 500, "一把广泛使用的直剑。平衡且可靠。",
   st0, ⟨0.8, 0.8, 0⟩⟩

def w_claymore : Item :=
  ⟨"w_claymore", "大剑", .WEAPON, 1000, "巨大的双手剑。攻击范围大。",
   st0, ⟨1.2, 0.6, 0⟩⟩

def w_zweihander : Item :=
  ⟨"w_zweihander", "双手巨剑", .WEAPON, 1500, "超特大剑。能够击晕敌人，但挥舞缓慢。",
   ⟨0, 0, 0, 0, 0, 20⟩, ⟨2.0, 0, 0⟩⟩

def w_uchigatana : Item :=
  ⟨"w_uchigatana", "打刀", .WEAPON, 900, "东方国度的武士刀。容易造成暴击。",
   ⟨0, 0, 5, 0, 0, 0⟩, ⟨0, 1.6, 0⟩⟩

def w_estoc : Item :=
  ⟨"w_estoc", "刺剑", .WEAPON, 800, "用于突刺的大剑。可以透过铠甲造成伤害。",
   st0, ⟨0.4, 1.2, 0⟩⟩

def w_staff : Item :=
  ⟨"w_staff", "魔法师杖", .WEAPON, 600, "施展魔法的触媒。威力取决于智力。",
   ⟨0, 0, 0, 5, 0, 0⟩, ⟨0, 0, 1.4⟩⟩

def w_moonlight : Item :=
  ⟨"w_moonlight", "月光大剑", .WEAPON, 2500, "传说中的魔力之剑。造成的伤害为魔法属性。",
   ⟨0, 0, 0, 0, 5, 0⟩, ⟨0.5, 0, 1.5⟩⟩

def a_knight : Item :=
  ⟨"a_knight", "骑士盔甲", .ARMOR, 600, "坚固的金属盔甲。提供基础防御。",
   ⟨30, 0, 0, 0, 10, 0⟩, sc0⟩

def a_elite : Item :=
  ⟨"a_elite", "上级骑士套装", .ARMOR, 1000, "亚斯特拉骑士的著名装备。优秀的防御。",
   ⟨50, 0, 0, 0, 15, 5⟩, sc0⟩

def a_blackiron : Item :=
  ⟨"a_blackiron", "黑铁套装", .ARMOR, 1400, "黑铁塔尔卡斯的重甲。极高的物理防御。",
   ⟨80, 0, -5, 0, 25, 15⟩, sc0⟩

def a_havel : Item :=
  ⟨"a_havel", "哈维尔套装", .ARMOR, 2000, "岩石般的重甲。不仅坚不可摧，还提供强韧度。",
   ⟨100, 0, -10, 0, 35, 40⟩, sc0⟩

def a_robes : Item :=
  ⟨"a_robes", "绯红长袍", .ARMOR, 400, "封印者的长袍。轻便且能增强魔力。",
   ⟨0, 0, 2, 10, 5, 0⟩, sc0⟩

def r_life : Item :=
  ⟨"r_life", "生命戒指", .ACCESSORY, 300, "提升最大生命值。",
   ⟨50, 0, 0, 0, 0, 0⟩, sc0⟩

def r_chloranthy : Item :=
  ⟨"r_chloranthy", "绿花戒指", .ACCESSORY, 500, "提升精力和速度（敏捷）。",
   ⟨0, 0, 8, 0, 0, 0⟩, sc0⟩

def r_havel : Item :=
  ⟨"r_havel", "哈维尔戒指", .ACCESSORY, 800, "为了纪念老战友而制。极大提升负重（力量）。",
   ⟨0, 15, 0, 0, 0, 0⟩, sc0⟩

def r_fap : Item :=
  ⟨"r_fap", "宠爱与保护戒指", .ACCESSORY, 1200, "女神的宠爱。全方位提升生命、体力和精力。",
   ⟨80, 5, 5, 0, 0, 0⟩, sc0⟩

def r_steel : Item :=
  ⟨"r_steel", "钢铁庇佑戒指", .ACCESSORY, 600, "提升对物理攻击的防御力。",
   ⟨0, 0, 0, 0, 15, 0⟩, sc0⟩

def r_rtsr : Item :=
  ⟨"r_rtsr", "红泪石戒指", .ACCESSORY, 1500, "濒死时攻击力大幅提升。",
   ⟨0, 2, 2, 0, 0, 0⟩, sc0⟩

def r_wolf : Item :=
  ⟨"r_wolf", "狼戒指", .ACCESSORY, 700, "阿尔特留斯的戒指。提升强韧度。",
   ⟨0, 0, 0, 0, 0, 30⟩, sc0⟩

def s_arrow : Item :=
  ⟨"s_arrow", "灵魂箭", .SPELL, 400, "基础魔法。发射灵魂能量。",
   ⟨0, 0, 0, 8, 0, 0⟩, sc0⟩

def s_harrow : Item :=
  ⟨"s_harrow", "强力灵魂箭", .SPELL, 800, "更强的灵魂魔法。",
   ⟨0, 0, 0, 15, 0, 0⟩, sc0⟩

def s_soulmass : Item :=
  ⟨"s_soulmass", "灵魂块", .SPELL, 1200, "浮游的灵魂块，会自动攻击敌人。",
   ⟨0, 0, 0, 25, 0, 0⟩, sc0⟩

def s_spear : Item :=
  ⟨"s_spear", "雷枪", .SPELL, 1000, "太阳教的奇迹。投掷闪电长枪。",
   ⟨0, 5, 0, 10, 0, 0⟩, sc0⟩

def SHOP_ITEMS : List Item :=
  [w_longsword, w_claymore, w_zweihander, w_uchigatana, w_estoc, w_staff,
   w_moonlight, a_knight, a_elite, a_blackiron, a_havel, a_robes,
   r_life, r_chloranthy, r_havel, r_fap, r_steel, r_rtsr, r_wolf,
   s_arrow, s_harrow, s_soulmass, s_spear]

/-! ### Player construction and derived stats (src/App.tsx lines 29-51) -/

/-- `createPlayer` (App.tsx line 29). -/
def createPlayer (id name : String) (isAi : Bool) : Player :=
  ⟨id, name, isAi, INITIAL_SOULS, [], BASE_STATS, 0, false⟩

/-- `calculateStats` (App.tsx line 40): base stats plus the sum of every
owned item's flat bonuses. -/
def calculateStats (player : Player) : Stats :=
  player.inventory.foldl
    (fun stats item =>
      ⟨stats.hp + item.stats.hp, stats.str + item.stats.str,
       stats.dex + item.stats.dex, stats.int + item.stats.int,
       stats.defense + item.stats.defense, stats.poise + item.stats.poise⟩)
    BASE_STATS

/-! ### Shop purchase validation (App.tsx lines 313-333) -/

/-- `processBuyItem` (App.tsx line 313). -/
def processBuyItem (state : GameState) (playerId itemId : String) : GameState :=
  match state.players.find? (fun p => p.id == playerId),
        SHOP_ITEMS.find? (fun i => i.id == itemId) with
  | some player, some item =>
    if player.souls < item.cost then state
    else
      let typeCount := (player.inventory.filter (fun i => i.type == item.type)).length
      if INVENTORY_LIMITS item.type ≤ typeCount then state
      else
        let newInventory := player.inventory ++ [item]
        let newStats := calculateStats { player with inventory := newInventory }
        let updatedPlayers := state.players.map (fun p =>
          if p.id == playerId then
            { p with souls := p.souls - item.cost, inventory := newInventory,
                     currentStats := newStats }
          else p)
        { state with players := updatedPlayers }
  | _, _ => state

/-! ### Replication protocol: host JOIN handling (App.tsx lines 144-168) -/

/-- An outbound host message produced while handling a JOIN: either the
`SYNC` re-send of the current state (duplicate join) or the `WELCOME`
carrying the new state (successful join). -/
inductive HostReply
  | sync (s : GameState)
  | welcome (s : GameState)
deriving DecidableEq, Repr

/-- The `msg.type === 'JOIN'` branch of the host side of `handleMessage`
(App.tsx lines 145-168): returns the new host state and the reply sent
(`none` when the handler returns without publishing anything). -/
def handleJoin (state : GameState) (id name : String) : GameState × Option HostReply :=
  match state.players.find? (fun p => p.id == id) with
  | some _ => (state, some (.sync state))
  | none =>
    if 2 ≤ state.players.length then (state, none)
    else
      let p2 := createPlayer id name false
      let newState := { state with players := state.players ++ [p2],
                                   phase := .SHOP }
      (newState, some (.welcome newState))

/-! ### Replication protocol: client SYNC/WELCOME handling
(App.tsx lines 122-140) -/

/-- A state-bearing message as seen by the client. -/
inductive ClientMsg
  | sync (s : GameState)
  | welcome (s : GameState)
deriving DecidableEq, Repr

/-- The client branch of `handleMessage` (App.tsx lines 122-140): given the
local player id, the `isConnected` flag and the local state, returns the
new local state and the new `isConnected` flag.  The source accepts the
incoming state when `msg.type === 'WELCOME' || myPlayerExists`. -/
def handleClientMsg (myPlayerId : String) (isConnected : Bool)
    (localState : GameState) : ClientMsg → GameState × Bool
  | .sync serverState =>
    if serverState.players.any (fun p => p.id == myPlayerId) then
      (serverState, true)
    else
      (localState, isConnected)
  | .welcome serverState => (serverState, true)

/-! ### Battle resolution (App.tsx lines 476-561) -/

/-- placeholder used to make list indexing total; a reachable battle state
always has two players, so the placeholder is never selected there. -/
def junkPlayer : Player := createPlayer "" "" false

/-- placeholder item for total indexing into a nonempty weapon list. -/
def junkItem : Item := ⟨"", "", .WEAPON, 0, "", st0, sc0⟩

/-- `pat` is a prefix of the character list. -/
def charListPrefix : List Char → List Char → Bool
  | [], _ => true
  | _ :: _, [] => false
  | a :: as, b :: bs => a == b && charListPrefix as bs

/-- `pat` occurs as a contiguous run somewhere in the character list. -/
def charListContains (pat : List Char) : List Char → Bool
  | [] => charListPrefix pat []
  | c :: rest => charListPrefix pat (c :: rest) || charListContains pat rest

/-- `str.includes(pat)` on JS strings: substring occurrence. -/
def strContains (s pat : String) : Bool := charListContains pat.data s.data

/-- Crit test from App.tsx line 517: the random draw is below
`attacker.currentStats.dex * 0.01`. -/
def isCrit (dex : ℤ) (draw : ℚ) : Bool := draw < (dex : ℚ) * 0.01

/-- The weapon/spell sub-inventory of App.tsx line 486. -/
def weaponsOf (attacker : Player) : List Item :=
  attacker.inventory.filter (fun i => i.type == .WEAPON || i.type == .SPELL)

/-- Damage before the tearstone multiplier (App.tsx lines 487-503):
`baseDmg + scalingDmg`, where the weapon drawn at random is embedded as
the index `wIdx` into the weapon list (taken modulo its length). -/
def preMultDmg (attacker : Player) (wIdx : ℕ) : ℚ :=
  let weapons := weaponsOf attacker
  if weapons.isEmpty then
    10 + (attacker.currentStats.str : ℚ) * 0.5
  else
    let weapon := weapons.getD (wIdx % weapons.length) junkItem
    20 + ((attacker.currentStats.str : ℚ) * weapon.scaling.str
        + (attacker.currentStats.dex : ℚ) * weapon.scaling.dex
        + (attacker.currentStats.int : ℚ) * weapon.scaling.int)

/-- `100 + sum of flat hp bonuses` (App.tsx line 507). -/
def maxHpOf (attacker : Player) : ℤ :=
  100 + attacker.inventory.foldl (fun a i => a + i.stats.hp) 0

/-- Red Tearstone Ring trigger (App.tsx lines 506-510): the attacker holds
the item with id `r_rtsr` and `currentStats.hp / maxHp < 0.2`. -/
def rtsrActive (attacker : Player) : Bool :=
  (attacker.inventory.any (fun i => i.id == "r_rtsr")) &&
  ((attacker.currentStats.hp : ℚ) / (maxHpOf attacker : ℚ) < 0.2)

/-- Raw damage fed into mitigation (App.tsx line 512). -/
def rawDmgOf (attacker : Player) (wIdx : ℕ) : ℚ :=
  preMultDmg attacker wIdx * (if rtsrActive attacker then 1.5 else 1)

/-- Damage actually subtracted from the defender (App.tsx lines 512-518):
mitigation, the ≥ 1 clamp, then the crit multiplier. -/
def turnDamage (attacker defender : Player) (wIdx : ℕ) (critDraw : ℚ) : ℤ :=
  let rawDmg := rawDmgOf attacker wIdx
  let mitigation : ℚ := (defender.currentStats.defense : ℚ)
  let finalDmg : ℤ := max 1 (rawDmg - mitigation).floor
  if isCrit attacker.currentStats.dex critDraw then
    ((finalDmg : ℚ) * 1.5).floor
  else finalDmg

/-- One attack turn, `executeTurn` (App.tsx lines 476-561), with the two
random draws passed explicitly: `wIdx` picks the weapon, `critDraw` is the
crit roll.  Out-of-range player indices (unreachable while the phase is
BATTLE) fall back to `junkPlayer` to keep the function total. -/
def executeTurn (prev : GameState) (wIdx : ℕ) (critDraw : ℚ) : GameState :=
  let attackerIdx := prev.currentTurnIndex
  let defenderIdx := if attackerIdx == 0 then 1 else 0
  let attacker := prev.players.getD attackerIdx junkPlayer
  let defender := prev.players.getD defenderIdx junkPlayer
  let weapons := weaponsOf attacker
  let weaponName :=
    if weapons.isEmpty then "空手"
    else (weapons.getD (wIdx % weapons.length) junkItem).name
  let isMagic :=
    if weapons.isEmpty then false
    else
      let weapon := weapons.getD (wIdx % weapons.length) junkItem
      weapon.type == .SPELL || strContains weapon.name "月光"
  let crit := isCrit attacker.currentStats.dex critDraw
  let actualDmg := turnDamage attacker defender wIdx critDraw
  let newDefenderHp := defender.currentStats.hp - actualDmg
  let newDefenderStats := { defender.currentStats with hp := newDefenderHp }
  let actionText0 :=
    if isMagic then "施放 " ++ weaponName ++ " 击中了"
    else "使用 " ++ weaponName ++ " 攻击了"
  let actionText :=
    if rtsrActive attacker then actionText0 ++ " (红泪石激活!)" else actionText0
  let newLog : CombatLog :=
    ⟨prev.logs.length + 1, attacker.name, defender.name, actualDmg, actionText, crit⟩
  let updatedPlayers :=
    prev.players.set defenderIdx { defender with currentStats := newDefenderStats }
  if newDefenderHp ≤ 0 then
    { prev with
        players := updatedPlayers,
        logs := prev.logs ++
          [newLog,
           ⟨prev.logs.length + 2, "SYSTEM", "", 0, defender.name ++ " 死亡。", false⟩],
        roundWinnerId := some attacker.id,
        phase := .ROUND_RESULT }
  else
    { prev with
        players := updatedPlayers,
        logs := prev.logs ++ [newLog],
        currentTurnIndex := defenderIdx }

/-! ### Round / match scoring (App.tsx lines 582-626) -/

/-- The per-player update at the top of `handleNextRound`
(App.tsx lines 584-594): bonus payout, win increment, stat recomputation
(healing) and readiness reset. -/
def roundUpdate (winnerId : Option String) (p : Player) : Player :=
  let isWinner := some p.id == winnerId
  { p with
      souls := p.souls + (if isWinner then ROUND_WIN_BONUS else ROUND_LOSS_BONUS),
      wins := if isWinner then p.wins + 1 else p.wins,
      currentStats := calculateStats p,
      isReady := false }

/-- `handleNextRound` (App.tsx line 582): pay the round bonuses, increment
the winner's win counter, recompute stats (the healing step), reset
readiness, then either end the match or return to the shop. -/
def handleNextRound (prev : GameState) : GameState :=
  let updatedPlayers := prev.players.map (roundUpdate prev.roundWinnerId)
  let winner := updatedPlayers.find? (fun p => 2 ≤ p.wins)
  if winner.isSome || decide (MAX_ROUNDS ≤ prev.round) then
    let p1Wins := (updatedPlayers.getD 0 junkPlayer).wins
    let p2Wins := (updatedPlayers.getD 1 junkPlayer).wins
    let finalWinnerId :=
      match winner with
      | some w => w.id
      | none =>
        if p2Wins ≤ p1Wins then (updatedPlayers.getD 0 junkPlayer).id
        else (updatedPlayers.getD 1 junkPlayer).id
    { prev with
        players := updatedPlayers,
        phase := .GAME_OVER,
        gameWinnerId := some finalWinnerId }
  else
    { prev with
        players := updatedPlayers,
        round := prev.round + 1,
        roundWinnerId := none,
        logs := [],
        phase := .SHOP }

/-! ### Shop-to-battle transition (App.tsx lines 439-473) -/

/-- The AI's validated purchase loop inside `startBattlePhase`
(App.tsx lines 447-457); `aiBuys` is the id list returned by the external
purchase-decision provider. -/
def aiShop (aiBuys : List String) (souls : ℤ) (inv : List Item) : ℤ × List Item :=
  aiBuys.foldl
    (fun acc bid =>
      match SHOP_ITEMS.find? (fun i => i.id == bid) with
      | none => acc
      | some item =>
        let typeCount := (acc.2.filter (fun aiI => aiI.type == item.type)).length
        if item.cost ≤ acc.1 && decide (typeCount < INVENTORY_LIMITS item.type) then
          (acc.1 - item.cost, acc.2 ++ [item])
        else acc)
    (souls, inv)

/-- `startBattlePhase` (App.tsx line 439) with the provider's answer passed
in as `aiBuys`. -/
def startBattlePhase (gameState : GameState) (aiBuys : List String) : GameState :=
  let aiPlayer := gameState.players.find? (fun p => p.isAi)
  let humanPlayer := gameState.players.find? (fun p => !p.isAi)
  let finalPlayers :=
    match aiPlayer, humanPlayer with
    | some ai, some _ =>
      let res := aiShop aiBuys ai.souls ai.inventory
      let aiStats := calculateStats { ai with inventory := res.2 }
      gameState.players.map (fun (p : Player) =>
        if p.id == ai.id then
          { p with souls := res.1, inventory := res.2, currentStats := aiStats }
        else p)
    | _, _ => gameState.players
  let finalPlayers2 := finalPlayers.map (fun (p : Player) => ({ p with isReady := false } : Player))
  { gameState with players := finalPlayers2, phase := .BATTLE, logs := [] }

/-! ### Session-level transitions (App.tsx lines 64-76, 337-418, 628-648) -/

/-- The initial `useState` value of `gameState` (App.tsx lines 66-76). -/
def initialState : GameState :=
  ⟨.LOGIN, 1, MAX_ROUNDS, none, [], [], 0, none, none⟩

/-- `resetGame` (App.tsx line 628): back to the lobby with an empty state. -/
def resetState : GameState :=
  ⟨.LOBBY, 1, MAX_ROUNDS, none, [], [], 0, none, none⟩

/-- The `PVE` branch of `handleCreateRoom` (App.tsx lines 344-362). -/
def createRoomPVE (s : GameState) (myId myName code : String) : GameState :=
  { s with roomCode := some code, phase := .SHOP,
           players := [createPlayer myId myName false,
                       createPlayer "ai-gemini" "暗灵 Gemini" true] }

/-- The `PVP` branch of `handleCreateRoom` (App.tsx lines 344-371). -/
def createRoomPVP (s : GameState) (myId myName code : String) : GameState :=
  { s with roomCode := some code, phase := .WAITING_FOR_OPPONENT,
           players := [createPlayer myId myName false] }

/-- Marking a player ready: the `ACTION_READY` branch of `handleMessage`
(App.tsx lines 180-188) and the host path of `handleShopReady`
(lines 412-417) share this update. -/
def markReady (s : GameState) (playerId : String) : GameState :=
  { s with players := s.players.map (fun (p : Player) =>
      if p.id == playerId then { p with isReady := true } else p) }

/-- `gameState.players.every(p => p.isReady || p.isAi)` (App.tsx line 426). -/
def allReady (s : GameState) : Bool := s.players.all (fun p => p.isReady || p.isAi)

/-- One host-side trigger: a UI action, an inbound client message, or a
timer firing, with all randomness and external-provider answers carried as
parameters. -/
inductive HostEvent
  | login
  | createPVE (myId myName code : String)
  | createPVP (myId myName code : String)
  | join (id name : String)
  | actionBuy (playerId itemId : String)
  | actionReady (playerId : String)
  | startBattle (aiBuys : List String)
  | turn (wIdx : ℕ) (critDraw : ℚ)
  | nextRound
  | reset

/-- The host's serialized state-transition point: each event applies its
handler under the guard the source applies before it runs (`renderLogin`
only renders while phase is LOGIN, the lobby buttons only while LOBBY, the
all-ready effect of App.tsx lines 421-437 fires only in SHOP with both
players present and ready, the turn timer of lines 563-571 only in BATTLE,
the round-result timer of lines 573-580 only in ROUND_RESULT with a round
winner; JOIN/ACTION_BUY/ACTION_READY and reset have no phase guard). -/
def applyEvent (s : GameState) : HostEvent → GameState
  | .login => if s.phase = .LOGIN then { s with phase := .LOBBY } else s
  | .createPVE a b c => if s.phase = .LOBBY then createRoomPVE s a b c else s
  | .createPVP a b c => if s.phase = .LOBBY then createRoomPVP s a b c else s
  | .join id name => (handleJoin s id name).1
  | .actionBuy pid iid => processBuyItem s pid iid
  | .actionReady pid => markReady s pid
  | .startBattle aiBuys =>
    if s.phase = .SHOP ∧ 2 ≤ s.players.length ∧ allReady s = true then
      startBattlePhase s aiBuys
    else s
  | .turn w c => if s.phase = .BATTLE then executeTurn s w c else s
  | .nextRound =>
    if s.phase = .ROUND_RESULT ∧ s.roundWinnerId.isSome = true then
      handleNextRound s
    else s
  | .reset => resetState

/-- One host transition. -/
def HostStep (s t : GameState) : Prop := ∃ e, t = applyEvent s e

/-- States the host can reach from process start. -/
def Reachable (s : GameState) : Prop :=
  Relation.ReflTransGen HostStep initialState s

/-- Replay of a concrete event trace. -/
def runEvents (l : List HostEvent) : GameState :=
  l.foldl applyEvent initialState

/-! ### Demo states and the C3 replay trace (used by the witnesses and the
counterexample below) -/

/-- Host state of a fresh PVE room: host player `"A"`/`alice` plus the AI
opponent, 3000 souls each, shop phase. -/
def buyDemoState : GameState := createRoomPVE initialState "A" "alice" "1234"

/-- A nonempty local client state used in the C2 scenario. -/
def c2Local : GameState := createRoomPVE initialState "A" "alice" "7"

/-- An incoming host state that does list the client id `"me"`. -/
def c2Incoming : GameState := createRoomPVE initialState "me" "bob" "9"

/-- The PVP host lobby used as the C4 witness start state. -/
def joinDemo : GameState := createRoomPVP initialState "h" "host" "77"

/-- A two-player round-result state: `"w"` (already one win) has just won
the round against `"l"`. -/
def c5Demo : GameState :=
  ⟨.ROUND_RESULT, 1, 3, none,
   [{ createPlayer "w" "W" false with wins := 1 }, createPlayer "l" "L" false],
   [], 0, some "w", none⟩

/-- A two-player battle state: the host carries the zweihander and it is
their turn. -/
def battleDemo : GameState :=
  ⟨.BATTLE, 1, 3, some "42",
   [⟨"p1", "me", false, 1500, [w_zweihander], ⟨100, 10, 10, 10, 0, 20⟩, 0, false⟩,
    ⟨"ai-gemini", "暗灵 Gemini", true, 3000, [], ⟨100, 10, 10, 10, 0, 0⟩, 0, false⟩],
   [], 0, none, none⟩

/-- An attacker wearing the Red Tearstone Ring at 10 of 100 hit points. -/
def rtsrDemo : Player := ⟨"x", "X", false, 0, [r_rtsr], ⟨10, 12, 12, 10, 0, 0⟩, 0, false⟩

/-- The inductive invariant: the claimed winner/phase correlation, amended
on the round-winner side (it survives into GAME_OVER), strengthened with a
player-count bound that the preservation argument needs. -/
def Inv (s : GameState) : Prop :=
  (s.roundWinnerId ≠ none ↔
    (s.phase = GamePhase.ROUND_RESULT ∨ s.phase = GamePhase.GAME_OVER)) ∧
  (s.gameWinnerId ≠ none ↔ s.phase = GamePhase.GAME_OVER) ∧
  ((s.phase = GamePhase.BATTLE ∨ s.phase = GamePhase.ROUND_RESULT ∨
      s.phase = GamePhase.GAME_OVER) → 2 ≤ s.players.length)

/-- The host player after buying the zweihander, parametrized by the
run-dependent fields. -/
def hostP (souls hp : ℤ) (wins : ℕ) (rdy : Bool) : Player :=
  ⟨"p1", "me", false, souls, [w_zweihander], ⟨hp, 10, 10, 10, 0, 20⟩, wins, rdy⟩

/-- The AI opponent, parametrized by the run-dependent fields. -/
def aiP (souls hp : ℤ) : Player :=
  ⟨"ai-gemini", "暗灵 Gemini", true, souls, [], ⟨hp, 10, 10, 10, 0, 0⟩, 0, false⟩

def L1 : CombatLog := ⟨1, "me", "暗灵 Gemini", 60, "使用 双手巨剑 攻击了", true⟩

def L2 : CombatLog := ⟨2, "暗灵 Gemini", "me", 15, "使用 空手 攻击了", false⟩

def L3 : CombatLog := ⟨3, "me", "暗灵 Gemini", 60, "使用 双手巨剑 攻击了", true⟩

def L4 : CombatLog := ⟨4, "SYSTEM", "", 0, "暗灵 Gemini 死亡。", false⟩

/-- A battle-phase state of the replay. -/
def battleSt (r : ℕ) (sp sa : ℤ) (wp : ℕ) (hpP hpA : ℤ)
    (lg : List CombatLog) (ti : ℕ) : GameState :=
  ⟨.BATTLE, r, 3, some "42", [hostP sp hpP wp false, aiP sa hpA], lg, ti,
   none, none⟩

/-- The round-result state after the AI dies on the third turn. -/
def rrSt (r : ℕ) (sp sa : ℤ) (wp : ℕ) : GameState :=
  ⟨.ROUND_RESULT, r, 3, some "42", [hostP sp 85 wp false, aiP sa (-20)],
   [L1, L2, L3, L4], 0, some "p1", none⟩

def cs1 : GameState := ⟨.LOBBY, 1, 3, none, [], [], 0, none, none⟩

def cs2 : GameState :=
  ⟨.SHOP, 1, 3, some "42",
   [createPlayer "p1" "me" false, createPlayer "ai-gemini" "暗灵 Gemini" true],
   [], 0, none, none⟩

def cs3 : GameState :=
  ⟨.SHOP, 1, 3, some "42", [hostP 1500 100 0 false, aiP 3000 100], [], 0,
   none, none⟩

def cs4 : GameState :=
  ⟨.SHOP, 1, 3, some "42", [hostP 1500 100 0 true, aiP 3000 100], [], 0,
   none, none⟩

def cs9 : GameState :=
  ⟨.SHOP, 2, 3, some "42", [hostP 3500 100 1 false, aiP 4000 100], [], 0,
   none, none⟩

def cs10 : GameState :=
  ⟨.SHOP, 2, 3, some "42", [hostP 3500 100 1 true, aiP 4000 100], [], 0,
   none, none⟩

/-- The final GAME_OVER state of the replay: `roundWinnerId` is still
`some "p1"`. -/
def cs15 : GameState :=
  ⟨.GAME_OVER, 2, 3, some "42", [hostP 5500 100 2 false, aiP 5000 100],
   [L1, L2, L3, L4], 0, some "p1", some "p1"⟩

/-- The replayed event trace. -/
def badTrace : List HostEvent :=
  [.login, .createPVE "p1" "me" "42", .actionBuy "p1" "w_zweihander",
   .actionReady "p1", .startBattle [], .turn 0 0, .turn 0 (1/2), .turn 0 0,
   .nextRound, .actionReady "p1", .startBattle [], .turn 0 0, .turn 0 (1/2),
   .turn 0 0, .nextRound]

/-! ### Generic helper lemmas -/

/-- Evaluating `Rat.floor` at an integer-valued rational. -/
lemma ratFloor_eqInt (q : ℚ) (n : ℤ) (h : q = (n : ℚ)) : q.floor = n := by
  subst h
  have h2 : Rat.floor ((n : ℚ)) = ⌊(n : ℚ)⌋ := rfl
  rw [h2, Int.floor_intCast]

/-- A successful `find?` splits the list at the first hit. -/
lemma find?_split {α : Type} (p : α → Bool) :
    ∀ (l : List α) (a : α), l.find? p = some a →
      ∃ l1 l2, l = l1 ++ a :: l2 ∧ (∀ x ∈ l1, p x = false) ∧ p a = true
  | [], a => by simp
  | x :: xs, a => by
    intro h
    by_cases hx : p x = true
    · rw [List.find?_cons_of_pos _ hx] at h
      obtain rfl : x = a := by injection h
      exact ⟨[], xs, rfl, by simp, hx⟩
    · rw [List.find?_cons_of_neg _ hx] at h
      obtain ⟨l1, l2, rfl, hl1, hpa⟩ := find?_split p xs a h
      refine ⟨x :: l1, l2, rfl, ?_, hpa⟩
      intro y hy
      rcases List.mem_cons.1 hy with rfl | hy
      · exact Bool.not_eq_true _ ▸ (by simpa using hx)
      · exact hl1 y hy

/-! ### C1: processBuyItem validation and success path -/

/-- **C1.** For every state, playerId and itemId: the purchase is rejected
(state returned unchanged) when the player is missing, the item is missing,
the souls are insufficient, or the per-category count has reached
`INVENTORY_LIMITS`; otherwise the found player pays the cost, the item is
appended once to their inventory, their stats are recomputed from the new
inventory, and every other player and state field is untouched. -/
theorem processBuyItem_spec (state : GameState) (playerId itemId : String) :
    (state.players.find? (fun p => p.id == playerId) = none →
      processBuyItem state playerId itemId = state) ∧
    (SHOP_ITEMS.find? (fun i => i.id == itemId) = none →
      processBuyItem state playerId itemId = state) ∧
    (∀ p item, state.players.find? (fun q => q.id == playerId) = some p →
      SHOP_ITEMS.find? (fun i => i.id == itemId) = some item →
      p.souls < item.cost →
      processBuyItem state playerId itemId = state) ∧
    (∀ p item, state.players.find? (fun q => q.id == playerId) = some p →
      SHOP_ITEMS.find? (fun i => i.id == itemId) = some item →
      INVENTORY_LIMITS item.type ≤
        (p.inventory.filter (fun i => i.type == item.type)).length →
      processBuyItem state playerId itemId = state) ∧
    (∀ p item, state.players.find? (fun q => q.id == playerId) = some p →
      SHOP_ITEMS.find? (fun i => i.id == itemId) = some item →
      item.cost ≤ p.souls →
      (p.inventory.filter (fun i => i.type == item.type)).length <
        INVENTORY_LIMITS item.type →
      (state.players.map Player.id).Nodup →
      ∃ pre post,
        state.players = pre ++ p :: post ∧
        (processBuyItem state playerId itemId).players =
          pre ++ ({ p with
                    souls := p.souls - item.cost,
                    inventory := p.inventory ++ [item],
                    currentStats :=
                      calculateStats { p with inventory := p.inventory ++ [item] } }
                  : Player) :: post ∧
        (processBuyItem state playerId itemId).phase = state.phase ∧
        (processBuyItem state playerId itemId).round = state.round ∧
        (processBuyItem state playerId itemId).roomCode = state.roomCode ∧
        (processBuyItem state playerId itemId).logs = state.logs ∧
        (processBuyItem state playerId itemId).currentTurnIndex = state.currentTurnIndex ∧
        (processBuyItem state playerId itemId).roundWinnerId = state.roundWinnerId ∧
        (processBuyItem state playerId itemId).gameWinnerId = state.gameWinnerId) := by
  refine ⟨?_, ?_, ?_, ?_, ?_⟩
  · intro h
    unfold processBuyItem
    rw [h]
  · intro h
    unfold processBuyItem
    rw [h]
    cases state.players.find? (fun p => p.id == playerId) <;> rfl
  · intro p item hp hi hlt
    unfold processBuyItem
    rw [hp, hi]
    simp only [if_pos hlt]
  · intro p item hp hi hge
    unfold processBuyItem
    rw [hp, hi]
    by_cases hlt : p.souls < item.cost
    · simp only [if_pos hlt]
    · simp only [if_neg hlt, if_pos hge]
  · intro p item hp hi hsouls hcount hnd
    obtain ⟨pre, post, hsplit, hpre, hpa⟩ :=
      find?_split (fun q => q.id == playerId) state.players p hp
    have hppid : (p.id == playerId) = true := hpa
    have hpid : p.id = playerId := by simpa using hppid
    have hnodup2 : p.id ∉ post.map Player.id := by
      rw [hsplit, List.map_append, List.map_cons] at hnd
      have h2 := (List.nodup_append.mp hnd).2.1
      exact (List.nodup_cons.mp h2).1
    have hresult : processBuyItem state playerId itemId =
        { state with players :=
            pre ++ ({ p with
                      souls := p.souls - item.cost,
                      inventory := p.inventory ++ [item],
                      currentStats :=
                        calculateStats { p with inventory := p.inventory ++ [item] } }
                    : Player) :: post } := by
      simp only [processBuyItem, hp, hi]
      rw [if_neg (not_lt.mpr hsouls), if_neg (not_le.mpr hcount)]
      have hpremap : ∀ x ∈ pre,
          (if x.id == playerId then
            ({ x with
               souls := x.souls - item.cost,
               inventory := p.inventory ++ [item],
               currentStats :=
                 calculateStats { p with inventory := p.inventory ++ [item] } } : Player)
          else x) = x := by
        intro x hx
        rw [hpre x hx]
        rfl
      have hpostmap : ∀ x ∈ post,
          (if x.id == playerId then
            ({ x with
               souls := x.souls - item.cost,
               inventory := p.inventory ++ [item],
               currentStats :=
                 calculateStats { p with inventory := p.inventory ++ [item] } } : Player)
          else x) = x := by
        intro x hx
        have hxid : (x.id == playerId) = false := by
          refine beq_eq_false_iff_ne.mpr ?_
          intro hxe
          apply hnodup2
          rw [hpid, ← hxe]
          exact List.mem_map_of_mem Player.id hx
        rw [hxid]
        rfl
      rw [hsplit, List.map_append, List.map_cons, hppid]
      simp only [List.map_congr_left hpremap, List.map_congr_left hpostmap,
        List.map_id', if_true]
    refine ⟨pre, post, hsplit, ?_, ?_, ?_, ?_, ?_, ?_, ?_, ?_⟩ <;> rw [hresult]

/-- Witness for `processBuyItem_spec`: with 3000 souls, buying the
500-soul longsword succeeds and leaves 2500 souls. -/
theorem processBuyItem_spec_witness :
    ∃ pre post,
      buyDemoState.players = pre ++ (createPlayer "A" "alice" false) :: post ∧
      (processBuyItem buyDemoState "A" "w_longsword").players =
        pre ++ ({ createPlayer "A" "alice" false with
                  souls := (createPlayer "A" "alice" false).souls - w_longsword.cost,
                  inventory := (createPlayer "A" "alice" false).inventory ++ [w_longsword],
                  currentStats :=
                    calculateStats { createPlayer "A" "alice" false with
                      inventory :=
                        (createPlayer "A" "alice" false).inventory ++ [w_longsword] } }
                : Player) :: post ∧
      (processBuyItem buyDemoState "A" "w_longsword").phase = buyDemoState.phase ∧
      (processBuyItem buyDemoState "A" "w_longsword").round = buyDemoState.round ∧
      (processBuyItem buyDemoState "A" "w_longsword").roomCode = buyDemoState.roomCode ∧
      (processBuyItem buyDemoState "A" "w_longsword").logs = buyDemoState.logs ∧
      (processBuyItem buyDemoState "A" "w_longsword").currentTurnIndex =
        buyDemoState.currentTurnIndex ∧
      (processBuyItem buyDemoState "A" "w_longsword").roundWinnerId =
        buyDemoState.roundWinnerId ∧
      (processBuyItem buyDemoState "A" "w_longsword").gameWinnerId =
        buyDemoState.gameWinnerId :=
  (processBuyItem_spec buyDemoState "A" "w_longsword").2.2.2.2
    (createPlayer "A" "alice" false) w_longsword rfl rfl (by decide) (by decide)
    (by decide)

/-! ### C2: client acceptance of SYNC/WELCOME -/

/-- **C2 counterexample.** A `WELCOME` whose payload does **not** list the
local player id `"me"` is still accepted: the local state is replaced by
the payload, contradicting the claim that such a message is rejected. -/
theorem welcome_accepted_without_local_id :
    (handleClientMsg "me" true c2Local (.welcome initialState)).1 = initialState ∧
    initialState.players.all (fun p => !(p.id == "me")) = true ∧
    initialState ≠ c2Local := by
  refine ⟨rfl, rfl, ?_⟩
  intro h
  exact GamePhase.noConfusion (congrArg GameState.phase h)

/-- **C2 (amended).** The client accepts an incoming `SYNC` exactly when its
own player id occurs in the payload's player list, but accepts a `WELCOME`
unconditionally; on rejection the local state and connection flag are
unchanged. -/
theorem handleClientMsg_amended (myId : String) (conn : Bool)
    (localState incoming : GameState) :
    handleClientMsg myId conn localState (.welcome incoming) = (incoming, true) ∧
    (incoming.players.any (fun p => p.id == myId) = true →
      handleClientMsg myId conn localState (.sync incoming) = (incoming, true)) ∧
    (incoming.players.any (fun p => p.id == myId) = false →
      handleClientMsg myId conn localState (.sync incoming) = (localState, conn)) := by
  refine ⟨rfl, ?_, ?_⟩ <;> intro h <;> simp [handleClientMsg, h]

/-- Witness for `handleClientMsg_amended` at concrete inputs. -/
theorem handleClientMsg_amended_witness :
    handleClientMsg "me" false c2Local (.welcome c2Incoming) = (c2Incoming, true) ∧
    handleClientMsg "me" false c2Local (.sync c2Incoming) = (c2Incoming, true) ∧
    handleClientMsg "zz" false c2Local (.sync c2Incoming) = (c2Local, false) :=
  ⟨(handleClientMsg_amended "me" false c2Local c2Incoming).1,
   (handleClientMsg_amended "me" false c2Local c2Incoming).2.1 (by decide),
   (handleClientMsg_amended "zz" false c2Local c2Incoming).2.2 (by decide)⟩

/-! ### C4 / C10: idempotent join handshake -/

/-- `find?` skips a prefix in which nothing matches. -/
lemma find?_append_none {α : Type} (p : α → Bool) (l1 l2 : List α)
    (h : l1.find? p = none) : (l1 ++ l2).find? p = l2.find? p := by
  induction l1 with
  | nil => rfl
  | cons x xs ih =>
    rcases hx : p x with _ | _
    · rw [List.find?_cons_of_neg _ (by simp [hx])] at h
      rw [List.cons_append, List.find?_cons_of_neg _ (by simp [hx])]
      exact ih h
    · rw [List.find?_cons_of_pos _ hx] at h
      exact absurd h (by simp)

/-- **C4.** Starting from a host state with a free slot and no player with
the joining id: the first JOIN appends the player (the id then occurs
exactly once) and moves the phase to SHOP, replying WELCOME with the new
state; every further JOIN with the same id (any name, any number of times)
re-sends the current state as SYNC and leaves the state unchanged. -/
theorem handleJoin_idempotent (s : GameState) (id nm : String)
    (hfree : s.players.length < 2)
    (hfresh : s.players.countP (fun p => p.id == id) = 0) :
    (handleJoin s id nm).1.players.countP (fun p => p.id == id) = 1 ∧
    (handleJoin s id nm).1.phase = GamePhase.SHOP ∧
    (handleJoin s id nm).2 = some (.welcome (handleJoin s id nm).1) ∧
    (∀ nm', handleJoin (handleJoin s id nm).1 id nm' =
      ((handleJoin s id nm).1, some (.sync (handleJoin s id nm).1))) ∧
    (∀ n, (fun st => (handleJoin st id nm).1)^[n] (handleJoin s id nm).1 =
      (handleJoin s id nm).1) := by
  have hfind : s.players.find? (fun p => p.id == id) = none := by
    rw [List.find?_eq_none]
    intro x hx
    have := List.countP_eq_zero.mp hfresh x hx
    simpa using this
  have hj : handleJoin s id nm =
      ({ s with players := s.players ++ [createPlayer id nm false],
                phase := GamePhase.SHOP },
       some (.welcome { s with players := s.players ++ [createPlayer id nm false],
                               phase := GamePhase.SHOP })) := by
    simp only [handleJoin, hfind]
    rw [if_neg (not_le.mpr hfree)]
  have hfind2 : (s.players ++ [createPlayer id nm false]).find?
      (fun p => p.id == id) = some (createPlayer id nm false) := by
    rw [find?_append_none _ _ _ hfind]
    simp [createPlayer]
  have hjoin2 : ∀ nm', handleJoin (handleJoin s id nm).1 id nm' =
      ((handleJoin s id nm).1, some (.sync (handleJoin s id nm).1)) := by
    intro nm'
    rw [hj]
    simp only [handleJoin, hfind2]
  refine ⟨?_, ?_, ?_, hjoin2, ?_⟩
  · rw [hj]
    simp only [List.countP_append]
    rw [hfresh]
    simp [createPlayer]
  · rw [hj]
  · rw [hj]
  · intro n
    exact Function.iterate_fixed (congrArg Prod.fst (hjoin2 nm)) n

/-- Witness for `handleJoin_idempotent`: a fresh guest joining a
one-player room. -/
theorem handleJoin_idempotent_witness :
    (handleJoin joinDemo "guest" "gg").1.players.countP
      (fun p => p.id == "guest") = 1 ∧
    (handleJoin joinDemo "guest" "gg").1.phase = GamePhase.SHOP ∧
    (handleJoin joinDemo "guest" "gg").2 =
      some (.welcome (handleJoin joinDemo "guest" "gg").1) ∧
    (∀ nm', handleJoin (handleJoin joinDemo "guest" "gg").1 "guest" nm' =
      ((handleJoin joinDemo "guest" "gg").1,
       some (.sync (handleJoin joinDemo "guest" "gg").1))) ∧
    (∀ n, (fun st => (handleJoin st "guest" "gg").1)^[n]
      (handleJoin joinDemo "guest" "gg").1 = (handleJoin joinDemo "guest" "gg").1) :=
  handleJoin_idempotent joinDemo "guest" "gg" (by decide) (by decide)

/-- **C10.** A JOIN from an unknown id arriving at a host whose room already
holds two players changes nothing and produces no reply. -/
theorem handleJoin_full_room (s : GameState) (id nm : String)
    (hfresh : s.players.countP (fun p => p.id == id) = 0)
    (hfull : s.players.length = 2) :
    handleJoin s id nm = (s, none) := by
  have hfind : s.players.find? (fun p => p.id == id) = none := by
    rw [List.find?_eq_none]
    intro x hx
    have := List.countP_eq_zero.mp hfresh x hx
    simpa using this
  simp only [handleJoin, hfind]
  rw [if_pos (by rw [hfull])]

/-- Witness for `handleJoin_full_room`: a third player's JOIN into the full
demo room is silently dropped. -/
theorem handleJoin_full_room_witness :
    handleJoin buyDemoState "guest" "gg" = (buyDemoState, none) :=
  handleJoin_full_room buyDemoState "guest" "gg" (by decide) (by decide)

/-! ### C5 / C6: round scoring -/

/-- In both branches of `handleNextRound` the player list is the updated
one. -/
lemma handleNextRound_players_eq (s : GameState) :
    (handleNextRound s).players = s.players.map (roundUpdate s.roundWinnerId) := by
  simp only [handleNextRound]
  split <;> rfl

/-- **C6.** In a two-player round-result state whose round winner is one of
the two (distinct) players, `handleNextRound` pays the winner exactly
`ROUND_WIN_BONUS = 2000` souls and one win, pays the loser exactly
`ROUND_LOSS_BONUS = 1000` souls and no win, recomputes every player's stats
from base stats plus inventory bonuses (`calculateStats`, the healing
step), and clears every ready flag. -/
theorem handleNextRound_bonuses (s : GameState) (p0 p1 : Player) (w : String)
    (hp : s.players = [p0, p1]) (hw : s.roundWinnerId = some w)
    (hne : p0.id ≠ p1.id) (hwm : w = p0.id ∨ w = p1.id) :
    ∃ q0 q1, (handleNextRound s).players = [q0, q1] ∧
      q0.currentStats = calculateStats p0 ∧ q1.currentStats = calculateStats p1 ∧
      q0.isReady = false ∧ q1.isReady = false ∧
      q0.id = p0.id ∧ q1.id = p1.id ∧
      (w = p0.id →
        q0.souls = p0.souls + 2000 ∧ q0.wins = p0.wins + 1 ∧
        q1.souls = p1.souls + 1000 ∧ q1.wins = p1.wins) ∧
      (w = p1.id →
        q1.souls = p1.souls + 2000 ∧ q1.wins = p1.wins + 1 ∧
        q0.souls = p0.souls + 1000 ∧ q0.wins = p0.wins) := by
  refine ⟨roundUpdate s.roundWinnerId p0, roundUpdate s.roundWinnerId p1,
    ?_, rfl, rfl, rfl, rfl, rfl, rfl, ?_, ?_⟩
  · rw [handleNextRound_players_eq, hp]
    rfl
  · intro h0
    have hb0 : (some p0.id == some w) = true := by
      rw [h0]
      exact beq_self_eq_true _
    have hb1 : (some p1.id == some w) = false := by
      refine beq_eq_false_iff_ne.mpr ?_
      simp only [ne_eq, Option.some.injEq]
      rw [h0]
      exact fun hcontra => hne hcontra.symm
    rw [hw]
    constructor
    · simp [roundUpdate, hb0, ROUND_WIN_BONUS]
    constructor
    · simp [roundUpdate, hb0]
    constructor
    · simp [roundUpdate, hb1, ROUND_LOSS_BONUS]
    · simp [roundUpdate, hb1]
  · intro h1
    have hb1 : (some p1.id == some w) = true := by
      rw [h1]
      exact beq_self_eq_true _
    have hb0 : (some p0.id == some w) = false := by
      refine beq_eq_false_iff_ne.mpr ?_
      simp only [ne_eq, Option.some.injEq]
      rw [h1]
      exact fun hcontra => hne hcontra
    rw [hw]
    constructor
    · simp [roundUpdate, hb1, ROUND_WIN_BONUS]
    constructor
    · simp [roundUpdate, hb1]
    constructor
    · simp [roundUpdate, hb0, ROUND_LOSS_BONUS]
    · simp [roundUpdate, hb0]

/-- Witness for `handleNextRound_bonuses` at the concrete demo round. -/
theorem handleNextRound_bonuses_witness :
    ∃ q0 q1, (handleNextRound c5Demo).players = [q0, q1] ∧
      q0.currentStats = calculateStats ({ createPlayer "w" "W" false with wins := 1 }) ∧
      q1.currentStats = calculateStats (createPlayer "l" "L" false) ∧
      q0.isReady = false ∧ q1.isReady = false ∧
      q0.id = ({ createPlayer "w" "W" false with wins := 1 } : Player).id ∧
      q1.id = (createPlayer "l" "L" false).id ∧
      ("w" = ({ createPlayer "w" "W" false with wins := 1 } : Player).id →
        q0.souls = ({ createPlayer "w" "W" false with wins := 1 } : Player).souls + 2000 ∧
        q0.wins = ({ createPlayer "w" "W" false with wins := 1 } : Player).wins + 1 ∧
        q1.souls = (createPlayer "l" "L" false).souls + 1000 ∧
        q1.wins = (createPlayer "l" "L" false).wins) ∧
      ("w" = (createPlayer "l" "L" false).id →
        q1.souls = (createPlayer "l" "L" false).souls + 2000 ∧
        q1.wins = (createPlayer "l" "L" false).wins + 1 ∧
        q0.souls = ({ createPlayer "w" "W" false with wins := 1 } : Player).souls + 1000 ∧
        q0.wins = ({ createPlayer "w" "W" false with wins := 1 } : Player).wins) :=
  handleNextRound_bonuses c5Demo ({ createPlayer "w" "W" false with wins := 1 })
    (createPlayer "l" "L" false) "w" rfl rfl (by decide) (Or.inl rfl)

/-- **C5.** In a two-player round-result state (with the configured
`maxRounds`), `handleNextRound` ends the match exactly when some updated
win counter reaches 2 or the round counter has reached `MAX_ROUNDS`; the
match winner is the player with 2 wins when exactly one exists, otherwise
the higher win count with ties to slot 0; and otherwise the round counter
increments, round winner and logs are cleared, and the phase returns to
SHOP.  In particular 2 wins end the match even when `round < MAX_ROUNDS`
(no round hypothesis appears in the first branch). -/
theorem handleNextRound_scoring (s : GameState) (p0 p1 q0 q1 : Player)
    (hp : s.players = [p0, p1])
    (hmr : s.maxRounds = MAX_ROUNDS)
    (hq : (handleNextRound s).players = [q0, q1]) :
    ((2 ≤ q0.wins ∨ 2 ≤ q1.wins ∨ MAX_ROUNDS ≤ s.round) →
      (handleNextRound s).phase = GamePhase.GAME_OVER ∧
      (2 ≤ q0.wins → (handleNextRound s).gameWinnerId = some q0.id) ∧
      (q0.wins < 2 → 2 ≤ q1.wins → (handleNextRound s).gameWinnerId = some q1.id) ∧
      (q0.wins < 2 → q1.wins < 2 →
        (handleNextRound s).gameWinnerId =
          some (if q1.wins ≤ q0.wins then q0.id else q1.id))) ∧
    (q0.wins < 2 → q1.wins < 2 → s.round < MAX_ROUNDS →
      (handleNextRound s).phase = GamePhase.SHOP ∧
      (handleNextRound s).round = s.round + 1 ∧
      (handleNextRound s).roundWinnerId = none ∧
      (handleNextRound s).logs = []) := by
  have hpl : (handleNextRound s).players =
      [roundUpdate s.roundWinnerId p0, roundUpdate s.roundWinnerId p1] := by
    rw [handleNextRound_players_eq, hp]
    rfl
  have hpair := hq.symm.trans hpl
  simp only [List.cons.injEq, and_true] at hpair
  obtain ⟨hq0, hq1⟩ := hpair
  subst hq0
  subst hq1
  by_cases h0 : 2 ≤ (roundUpdate s.roundWinnerId p0).wins
  · have hfind : (s.players.map (roundUpdate s.roundWinnerId)).find?
        (fun p => 2 ≤ p.wins) = some (roundUpdate s.roundWinnerId p0) := by
      rw [hp]
      exact List.find?_cons_of_pos _ (by simpa using h0)
    constructor
    · intro _
      refine ⟨?_, fun _ => ?_, fun hlt _ => absurd h0 (not_le.mpr hlt),
        fun hlt _ => absurd h0 (not_le.mpr hlt)⟩
      · simp only [handleNextRound, hfind]
        rfl
      · simp only [handleNextRound, hfind]
        rfl
    · intro hlt _ _
      exact absurd h0 (not_le.mpr hlt)
  · by_cases h1 : 2 ≤ (roundUpdate s.roundWinnerId p1).wins
    · have hfind : (s.players.map (roundUpdate s.roundWinnerId)).find?
          (fun p => 2 ≤ p.wins) = some (roundUpdate s.roundWinnerId p1) := by
        rw [hp]
        show List.find? _ (_ :: _ :: _) = _
        rw [List.find?_cons_of_neg _ (by simpa using h0),
          List.find?_cons_of_pos _ (by simpa using h1)]
      constructor
      · intro _
        refine ⟨?_, fun hc => absurd hc h0, fun _ _ => ?_,
          fun _ hlt => absurd h1 (not_le.mpr hlt)⟩
        · simp only [handleNextRound, hfind]
          rfl
        · simp only [handleNextRound, hfind]
          rfl
      · intro _ hlt _
        exact absurd h1 (not_le.mpr hlt)
    · have hfind : (s.players.map (roundUpdate s.roundWinnerId)).find?
          (fun p => 2 ≤ p.wins) = none := by
        rw [hp]
        show List.find? _ (_ :: _ :: _) = _
        rw [List.find?_cons_of_neg _ (by simpa using h0),
          List.find?_cons_of_neg _ (by simpa using h1)]
        rfl
      by_cases hr : MAX_ROUNDS ≤ s.round
      · constructor
        · intro _
          refine ⟨?_, fun hc => absurd hc h0, fun _ hc => absurd hc h1,
            fun _ _ => ?_⟩
          · simp only [handleNextRound, hfind, hr]
            simp [hp]
          · simp only [handleNextRound, hfind, hr]
            simp only [Option.isSome_none, Bool.false_or, decide_eq_true_eq,
              if_pos hr]
            rw [hp]
            by_cases hcmp : (roundUpdate s.roundWinnerId p1).wins ≤
                (roundUpdate s.roundWinnerId p0).wins
            · rw [if_pos hcmp]
              simp [hcmp]
            · rw [if_neg hcmp]
              simp [hcmp]
        · intro _ _ hlt
          exact absurd hr (not_le.mpr hlt)
      · constructor
        · intro hor
          rcases hor with hc | hc | hc
          · exact absurd hc h0
          · exact absurd hc h1
          · exact absurd hc hr
        · intro _ _ _
          simp only [handleNextRound, hfind, hr]
          refine ⟨?_, ?_, ?_, ?_⟩ <;>
            simp [Option.isSome_none, Bool.false_or, hr]

/-- Witness for `handleNextRound_scoring`: the demo round ends the match
(2 wins reached with `round = 1 < MAX_ROUNDS`) and crowns `"w"`. -/
theorem handleNextRound_scoring_witness :
    (handleNextRound c5Demo).phase = GamePhase.GAME_OVER ∧
    (handleNextRound c5Demo).gameWinnerId = some "w" := by
  have h := (handleNextRound_scoring c5Demo
    ({ createPlayer "w" "W" false with wins := 1 }) (createPlayer "l" "L" false)
    (⟨"w", "W", false, 5000, [], BASE_STATS, 2, false⟩ : Player)
    (⟨"l", "L", false, 4000, [], BASE_STATS, 0, false⟩ : Player)
    rfl rfl rfl).1 (Or.inl (by decide))
  exact ⟨h.1, h.2.1 (by decide)⟩

/-! ### C7: damage is always at least 1 -/

/-- The mitigated (and possibly crit-multiplied) damage is at least 1. -/
lemma one_le_turnDamage (a d : Player) (w : ℕ) (c : ℚ) :
    1 ≤ turnDamage a d w c := by
  have hfd : (1 : ℤ) ≤
      max 1 (rawDmgOf a w - (d.currentStats.defense : ℚ)).floor :=
    le_max_left _ _
  simp only [turnDamage]
  split
  · refine Rat.le_floor.mpr ?_
    have h1 : (1 : ℚ) ≤
        ((max 1 (rawDmgOf a w - (d.currentStats.defense : ℚ)).floor : ℤ) : ℚ) := by
      exact_mod_cast hfd
    nlinarith
  · exact hfd

/-- Both branches of `executeTurn` write the same updated defender back
into the player list. -/
lemma executeTurn_players (prev : GameState) (w : ℕ) (c : ℚ) :
    (executeTurn prev w c).players =
      prev.players.set (if prev.currentTurnIndex == 0 then 1 else 0)
        { prev.players.getD (if prev.currentTurnIndex == 0 then 1 else 0) junkPlayer with
          currentStats :=
            { (prev.players.getD (if prev.currentTurnIndex == 0 then 1 else 0)
                junkPlayer).currentStats with
              hp := (prev.players.getD (if prev.currentTurnIndex == 0 then 1 else 0)
                  junkPlayer).currentStats.hp -
                turnDamage (prev.players.getD prev.currentTurnIndex junkPlayer)
                  (prev.players.getD (if prev.currentTurnIndex == 0 then 1 else 0)
                    junkPlayer) w c } } := by
  simp only [executeTurn]
  split <;> split <;> rfl

/-- **C7.** In every two-player state, whatever the random draws and however
large the defender's defense, `executeTurn` lowers the defender's hit
points by at least 1 — also on a critical hit, whose `× 1.5` with flooring
is applied after mitigation. -/
theorem executeTurn_min_damage (s : GameState) (p0 p1 : Player) (wIdx : ℕ)
    (draw : ℚ) (hp : s.players = [p0, p1]) :
    ((executeTurn s wIdx draw).players.getD
        (if s.currentTurnIndex == 0 then 1 else 0) junkPlayer).currentStats.hp ≤
      (if s.currentTurnIndex == 0 then p1 else p0).currentStats.hp - 1 := by
  have hdmg := one_le_turnDamage (s.players.getD s.currentTurnIndex junkPlayer)
    (s.players.getD (if s.currentTurnIndex == 0 then 1 else 0) junkPlayer) wIdx draw
  rw [executeTurn_players]
  rcases hb : (s.currentTurnIndex == 0) with _ | _ <;>
    simp [hp, hb] at hdmg ⊢ <;>
    omega

/-- Witness for `executeTurn_min_damage` at the concrete battle state. -/
theorem executeTurn_min_damage_witness :
    ((executeTurn battleDemo 0 0).players.getD
        (if battleDemo.currentTurnIndex == 0 then 1 else 0) junkPlayer).currentStats.hp ≤
      (if battleDemo.currentTurnIndex == 0
        then (⟨"ai-gemini", "暗灵 Gemini", true, 3000, [], ⟨100, 10, 10, 10, 0, 0⟩, 0, false⟩ : Player)
        else (⟨"p1", "me", false, 1500, [w_zweihander], ⟨100, 10, 10, 10, 0, 20⟩, 0, false⟩ : Player)).currentStats.hp - 1 :=
  executeTurn_min_damage battleDemo
    (⟨"p1", "me", false, 1500, [w_zweihander], ⟨100, 10, 10, 10, 0, 20⟩, 0, false⟩ : Player)
    (⟨"ai-gemini", "暗灵 Gemini", true, 3000, [], ⟨100, 10, 10, 10, 0, 0⟩, 0, false⟩ : Player)
    0 0 rfl

/-! ### C8: the critical-hit rule -/

/-- **C8.** `executeTurn`'s crit test `isCrit` fires exactly when the draw
is below `dex × 0.01`; hence the crit set grows with dexterity, and at
dexterity 0 no draw in `[0, 1)` (indeed no nonnegative draw) produces a
crit. -/
theorem executeTurn_crit_rule (d d' : ℤ) (r : ℚ) (hdd : d ≤ d') (hr : 0 ≤ r) :
    (isCrit d r = true ↔ r < (d : ℚ) * 0.01) ∧
    (isCrit d r = true → isCrit d' r = true) ∧
    isCrit 0 r = false := by
  refine ⟨by simp [isCrit], ?_, ?_⟩
  · intro h
    simp only [isCrit, decide_eq_true_eq] at h ⊢
    have hc : ((d : ℚ)) ≤ ((d' : ℚ)) := by exact_mod_cast hdd
    have hstep : (d : ℚ) * 0.01 ≤ (d' : ℚ) * 0.01 :=
      mul_le_mul_of_nonneg_right hc (by norm_num)
    exact lt_of_lt_of_le h hstep
  · simp only [isCrit, decide_eq_false_iff_not, not_lt]
    have h0 : ((0 : ℤ) : ℚ) * 0.01 = 0 := by norm_num
    rw [h0]
    exact hr

/-- Witness for `executeTurn_crit_rule`: a draw of 0.03 crits at dexterity
5 (hence at 10), and never crits at dexterity 0. -/
theorem executeTurn_crit_rule_witness :
    isCrit 10 (3 / 100) = true ∧ isCrit 0 (3 / 100) = false := by
  have h := executeTurn_crit_rule 5 10 (3 / 100) (by norm_num) (by norm_num)
  exact ⟨h.2.1 (h.1.mpr (by norm_num)), h.2.2⟩

/-! ### C9: the Red Tearstone multiplier -/

/-- **C9.** The raw damage of `executeTurn` is multiplied by 1.5 before
mitigation exactly when the attacker holds the item `r_rtsr` and their
current hit points are strictly below 20% of `100 +` the summed flat hp
bonuses of their inventory; otherwise the multiplier is 1. -/
theorem executeTurn_rtsr_multiplier (a : Player) (wIdx : ℕ)
    (hmax : 0 < maxHpOf a) :
    (rtsrActive a = true ↔
      (a.inventory.any (fun i => i.id == "r_rtsr") = true ∧
       (a.currentStats.hp : ℚ) <
         0.2 * ((100 : ℚ) +
           ((a.inventory.foldl (fun acc i => acc + i.stats.hp) 0 : ℤ) : ℚ)))) ∧
    (rtsrActive a = true → rawDmgOf a wIdx = preMultDmg a wIdx * 1.5) ∧
    (rtsrActive a = false → rawDmgOf a wIdx = preMultDmg a wIdx) := by
  have hm : ((maxHpOf a : ℤ) : ℚ) =
      (100 : ℚ) + ((a.inventory.foldl (fun acc i => acc + i.stats.hp) 0 : ℤ) : ℚ) := by
    rw [maxHpOf]
    push_cast
    ring
  have hmq : (0 : ℚ) < ((maxHpOf a : ℤ) : ℚ) := by exact_mod_cast hmax
  refine ⟨?_, ?_, ?_⟩
  · rw [rtsrActive, Bool.and_eq_true, decide_eq_true_eq]
    constructor
    · rintro ⟨h1, h2⟩
      refine ⟨h1, ?_⟩
      rw [← hm]
      exact (div_lt_iff hmq).mp h2
    · rintro ⟨h1, h2⟩
      refine ⟨h1, (div_lt_iff hmq).mpr ?_⟩
      rw [hm]
      exact h2
  · intro h
    simp [rawDmgOf, h]
  · intro h
    simp [rawDmgOf, h]

/-- Witness for `executeTurn_rtsr_multiplier`: the ring fires at 10% hp and
the raw damage picks up the 1.5 multiplier. -/
theorem executeTurn_rtsr_multiplier_witness :
    rtsrActive rtsrDemo = true ∧
    rawDmgOf rtsrDemo 0 = preMultDmg rtsrDemo 0 * 1.5 := by
  have h := executeTurn_rtsr_multiplier rtsrDemo 0 (by decide)
  have ha : rtsrActive rtsrDemo = true :=
    h.1.mpr ⟨rfl, by norm_num [rtsrDemo, r_rtsr]⟩
  exact ⟨ha, h.2.1 ha⟩

/-! ### C3: the winner/phase correlation over reachable states -/

lemma inv_of_none (t : GameState) (hrw : t.roundWinnerId = none)
    (hgw : t.gameWinnerId = none)
    (hp1 : t.phase ≠ GamePhase.ROUND_RESULT)
    (hp2 : t.phase ≠ GamePhase.GAME_OVER)
    (hp3 : t.phase = GamePhase.BATTLE → 2 ≤ t.players.length) : Inv t := by
  refine ⟨?_, ?_, ?_⟩
  · constructor
    · intro hne
      exact absurd hrw hne
    · rintro (hh | hh)
      exacts [absurd hh hp1, absurd hh hp2]
  · constructor
    · intro hne
      exact absurd hgw hne
    · intro hh
      exact absurd hh hp2
  · rintro (hh | hh | hh)
    exacts [hp3 hh, absurd hh hp1, absurd hh hp2]

lemma winners_none_of_inv (s : GameState) (h : Inv s)
    (hp1 : s.phase ≠ GamePhase.ROUND_RESULT)
    (hp2 : s.phase ≠ GamePhase.GAME_OVER) :
    s.roundWinnerId = none ∧ s.gameWinnerId = none := by
  constructor
  · by_contra hne
    rcases h.1.mp hne with hh | hh
    exacts [hp1 hh, hp2 hh]
  · by_contra hne
    exact hp2 (h.2.1.mp hne)

lemma processBuyItem_shape (s : GameState) (pid iid : String) :
    (processBuyItem s pid iid).phase = s.phase ∧
    (processBuyItem s pid iid).roundWinnerId = s.roundWinnerId ∧
    (processBuyItem s pid iid).gameWinnerId = s.gameWinnerId ∧
    (processBuyItem s pid iid).players.length = s.players.length := by
  unfold processBuyItem
  rcases hf : s.players.find? (fun p => p.id == pid) with _ | p
  all_goals rcases hg : SHOP_ITEMS.find? (fun i => i.id == iid) with _ | it
  all_goals simp only [hf, hg]
  · simp
  · simp
  · simp
  · split_ifs <;> simp

lemma markReady_shape (s : GameState) (pid : String) :
    (markReady s pid).phase = s.phase ∧
    (markReady s pid).roundWinnerId = s.roundWinnerId ∧
    (markReady s pid).gameWinnerId = s.gameWinnerId ∧
    (markReady s pid).players.length = s.players.length := by
  simp [markReady]

lemma handleJoin_shape (s : GameState) (id nm : String) :
    (handleJoin s id nm).1 = s ∨
    (s.players.length < 2 ∧ (handleJoin s id nm).1 =
      { s with players := s.players ++ [createPlayer id nm false],
               phase := GamePhase.SHOP }) := by
  unfold handleJoin
  rcases hf : s.players.find? (fun p => p.id == id) with _ | p
  all_goals simp only [hf]
  · by_cases hl : 2 ≤ s.players.length
    · rw [if_pos hl]
      left
      rfl
    · rw [if_neg hl]
      right
      exact ⟨not_le.mp hl, rfl⟩
  · left
    trivial

lemma startBattlePhase_shape (s : GameState) (ab : List String) :
    (startBattlePhase s ab).phase = GamePhase.BATTLE ∧
    (startBattlePhase s ab).roundWinnerId = s.roundWinnerId ∧
    (startBattlePhase s ab).gameWinnerId = s.gameWinnerId ∧
    (startBattlePhase s ab).players.length = s.players.length := by
  unfold startBattlePhase
  rcases hf : s.players.find? (fun p => p.isAi) with _ | ai <;>
    rcases hg : s.players.find? (fun p => !p.isAi) with _ | hu <;>
    simp [hf, hg]

lemma executeTurn_shape (s : GameState) (w : ℕ) (c : ℚ) :
    (executeTurn s w c).gameWinnerId = s.gameWinnerId ∧
    (executeTurn s w c).players.length = s.players.length ∧
    (((executeTurn s w c).phase = GamePhase.ROUND_RESULT ∧
      (executeTurn s w c).roundWinnerId ≠ none) ∨
     ((executeTurn s w c).phase = s.phase ∧
      (executeTurn s w c).roundWinnerId = s.roundWinnerId)) := by
  simp only [executeTurn]
  split <;> split
  · exact ⟨rfl, by simp, Or.inl ⟨rfl, by simp⟩⟩
  · exact ⟨rfl, by simp, Or.inr ⟨rfl, rfl⟩⟩
  · exact ⟨rfl, by simp, Or.inl ⟨rfl, by simp⟩⟩
  · exact ⟨rfl, by simp, Or.inr ⟨rfl, rfl⟩⟩

lemma handleNextRound_shape (s : GameState) :
    (handleNextRound s).players.length = s.players.length ∧
    (((handleNextRound s).phase = GamePhase.GAME_OVER ∧
      (handleNextRound s).gameWinnerId ≠ none ∧
      (handleNextRound s).roundWinnerId = s.roundWinnerId) ∨
     ((handleNextRound s).phase = GamePhase.SHOP ∧
      (handleNextRound s).gameWinnerId = s.gameWinnerId ∧
      (handleNextRound s).roundWinnerId = none)) := by
  simp only [handleNextRound]
  split
  · exact ⟨by simp, Or.inl ⟨rfl, by simp, rfl⟩⟩
  · exact ⟨by simp, Or.inr ⟨rfl, rfl, rfl⟩⟩

lemma applyEvent_inv (s : GameState) (e : HostEvent) (h : Inv s) :
    Inv (applyEvent s e) := by
  obtain ⟨h1, h2, h3⟩ := h
  cases e with
  | login =>
    simp only [applyEvent]
    split
    · next hph =>
      obtain ⟨hrw, hgw⟩ := winners_none_of_inv s ⟨h1, h2, h3⟩
        (by rw [hph]; exact fun hh => GamePhase.noConfusion hh)
        (by rw [hph]; exact fun hh => GamePhase.noConfusion hh)
      exact inv_of_none _ hrw hgw (fun hh => GamePhase.noConfusion hh)
        (fun hh => GamePhase.noConfusion hh) (fun hh => GamePhase.noConfusion hh)
    · exact ⟨h1, h2, h3⟩
  | createPVE a b c =>
    simp only [applyEvent]
    split
    · next hph =>
      obtain ⟨hrw, hgw⟩ := winners_none_of_inv s ⟨h1, h2, h3⟩
        (by rw [hph]; exact fun hh => GamePhase.noConfusion hh)
        (by rw [hph]; exact fun hh => GamePhase.noConfusion hh)
      exact inv_of_none _ hrw hgw (fun hh => GamePhase.noConfusion hh)
        (fun hh => GamePhase.noConfusion hh) (fun hh => GamePhase.noConfusion hh)
    · exact ⟨h1, h2, h3⟩
  | createPVP a b c =>
    simp only [applyEvent]
    split
    · next hph =>
      obtain ⟨hrw, hgw⟩ := winners_none_of_inv s ⟨h1, h2, h3⟩
        (by rw [hph]; exact fun hh => GamePhase.noConfusion hh)
        (by rw [hph]; exact fun hh => GamePhase.noConfusion hh)
      exact inv_of_none _ hrw hgw (fun hh => GamePhase.noConfusion hh)
        (fun hh => GamePhase.noConfusion hh) (fun hh => GamePhase.noConfusion hh)
    · exact ⟨h1, h2, h3⟩
  | join id nm =>
    simp only [applyEvent]
    rcases handleJoin_shape s id nm with heq | ⟨hlen, heq⟩
    · rw [heq]
      exact ⟨h1, h2, h3⟩
    · have hnc : ¬(s.phase = GamePhase.BATTLE ∨ s.phase = GamePhase.ROUND_RESULT ∨
          s.phase = GamePhase.GAME_OVER) := by
        intro hh
        exact absurd (h3 hh) (not_le.mpr hlen)
      push_neg at hnc
      obtain ⟨hrw, hgw⟩ := winners_none_of_inv s ⟨h1, h2, h3⟩ hnc.2.1 hnc.2.2
      rw [heq]
      exact inv_of_none _ hrw hgw (fun hh => GamePhase.noConfusion hh)
        (fun hh => GamePhase.noConfusion hh) (fun hh => GamePhase.noConfusion hh)
  | actionBuy pid iid =>
    obtain ⟨e1, e2, e3, e4⟩ := processBuyItem_shape s pid iid
    simp only [applyEvent]
    exact ⟨by rw [e1, e2]; exact h1, by rw [e1, e3]; exact h2,
      by rw [e1, e4]; exact h3⟩
  | actionReady pid =>
    obtain ⟨e1, e2, e3, e4⟩ := markReady_shape s pid
    simp only [applyEvent]
    exact ⟨by rw [e1, e2]; exact h1, by rw [e1, e3]; exact h2,
      by rw [e1, e4]; exact h3⟩
  | startBattle ab =>
    simp only [applyEvent]
    split
    · next hg =>
      obtain ⟨hrw, hgw⟩ := winners_none_of_inv s ⟨h1, h2, h3⟩
        (by rw [hg.1]; exact fun hh => GamePhase.noConfusion hh)
        (by rw [hg.1]; exact fun hh => GamePhase.noConfusion hh)
      obtain ⟨e1, e2, e3, e4⟩ := startBattlePhase_shape s ab
      refine inv_of_none _ (by rw [e2]; exact hrw) (by rw [e3]; exact hgw)
        (by rw [e1]; exact fun hh => GamePhase.noConfusion hh)
        (by rw [e1]; exact fun hh => GamePhase.noConfusion hh)
        (fun _ => by rw [e4]; exact hg.2.1)
    · exact ⟨h1, h2, h3⟩
  | turn w c =>
    simp only [applyEvent]
    split
    · next hph =>
      obtain ⟨hrw, hgw⟩ := winners_none_of_inv s ⟨h1, h2, h3⟩
        (by rw [hph]; exact fun hh => GamePhase.noConfusion hh)
        (by rw [hph]; exact fun hh => GamePhase.noConfusion hh)
      have hlen : 2 ≤ s.players.length := h3 (Or.inl hph)
      obtain ⟨e1, e2, hd⟩ := executeTurn_shape s w c
      rcases hd with ⟨hph', hrw'⟩ | ⟨hph', hrw'⟩
      · refine ⟨iff_of_true hrw' (Or.inl hph'), ?_, fun _ => by rw [e2]; exact hlen⟩
        rw [e1, hgw, hph']
        simp
      · refine ⟨?_, ?_, fun _ => by rw [e2]; exact hlen⟩
        · rw [hrw', hrw, hph', hph]
          simp
        · rw [e1, hgw, hph', hph]
          simp
    · exact ⟨h1, h2, h3⟩
  | nextRound =>
    simp only [applyEvent]
    split
    · next hg =>
      have hgw : s.gameWinnerId = none := by
        by_contra hne
        have := h2.mp hne
        rw [hg.1] at this
        exact GamePhase.noConfusion this
      have hlen : 2 ≤ s.players.length := h3 (Or.inr (Or.inl hg.1))
      have hrwne : s.roundWinnerId ≠ none := by
        intro hh
        rw [hh] at hg
        exact Bool.noConfusion hg.2
      obtain ⟨e0, hd⟩ := handleNextRound_shape s
      rcases hd with ⟨hph', hgw', hrw'⟩ | ⟨hph', hgw', hrw'⟩
      · refine ⟨?_, iff_of_true hgw' hph', fun _ => by rw [e0]; exact hlen⟩
        refine iff_of_true ?_ (Or.inr hph')
        rw [hrw']
        exact hrwne
      · refine ⟨?_, ?_, fun _ => by rw [e0]; exact hlen⟩
        · rw [hrw', hph']
          simp
        · rw [hgw', hgw, hph']
          simp
    · exact ⟨h1, h2, h3⟩
  | reset =>
    simp only [applyEvent]
    refine inv_of_none resetState rfl rfl ?_ ?_ ?_ <;>
      exact fun hh => GamePhase.noConfusion hh

/-- **C3 (amended).** In every state reachable by host transitions, the
match-winner id is non-null exactly in phase GAME_OVER, and the
round-winner id is non-null exactly in phases ROUND_RESULT **or
GAME_OVER** — the source never clears `roundWinnerId` when
`handleNextRound` ends the match, so it survives into GAME_OVER (this is
the amendment; the original claim tied it to ROUND_RESULT alone). -/
theorem reachable_winner_phase (s : GameState) (h : Reachable s) :
    (s.roundWinnerId ≠ none ↔
      (s.phase = GamePhase.ROUND_RESULT ∨ s.phase = GamePhase.GAME_OVER)) ∧
    (s.gameWinnerId ≠ none ↔ s.phase = GamePhase.GAME_OVER) := by
  have hinv : Inv s := by
    induction h with
    | refl =>
      exact inv_of_none initialState rfl rfl
        (fun hh => GamePhase.noConfusion hh) (fun hh => GamePhase.noConfusion hh)
        (fun hh => GamePhase.noConfusion hh)
    | tail _ hstep ih =>
      obtain ⟨e, rfl⟩ := hstep
      exact applyEvent_inv _ e ih
  exact ⟨hinv.1, hinv.2.1⟩

/-- Witness for `reachable_winner_phase` at the initial state. -/
theorem reachable_winner_phase_witness :
    ((initialState.roundWinnerId ≠ none ↔
      (initialState.phase = GamePhase.ROUND_RESULT ∨
       initialState.phase = GamePhase.GAME_OVER)) ∧
     (initialState.gameWinnerId ≠ none ↔
      initialState.phase = GamePhase.GAME_OVER)) :=
  reachable_winner_phase initialState Relation.ReflTransGen.refl

/-! A concrete PVE match replay for the C3 counterexample: the host buys a
zweihander, wins two rounds (three attack turns each, the host's hits
critting), and the match ends — with `roundWinnerId` still set in the
GAME_OVER state. -/

/-- First host attack of a round: 40 raw, crit to 60, AI falls to 40 hp. -/
lemma turnA (r : ℕ) (sp sa : ℤ) (wp : ℕ) :
    applyEvent (battleSt r sp sa wp 100 100 [] 0) (.turn 0 0) =
    battleSt r sp sa wp 100 40 [L1] 1 := by
  have hf1 : ((40 : ℚ)).floor = (40 : ℤ) := ratFloor_eqInt _ _ (by norm_num)
  have hf2 : ((60 : ℚ)).floor = (60 : ℤ) := ratFloor_eqInt _ _ (by norm_num)
  have hm : ((1 : ℤ) ⊔ 40) = 40 := by norm_num
  have hsc : strContains "双手巨剑" "月光" = false := by decide
  have hic : isCrit 10 0 = true := by
    simp only [isCrit, decide_eq_true_eq]
    norm_num
  have hty : ¬(ItemType.WEAPON = ItemType.SPELL) := by decide
  have hsA : "使用 " ++ "双手巨剑" ++ " 攻击了" = "使用 双手巨剑 攻击了" := rfl
  norm_num [applyEvent, executeTurn, turnDamage, rawDmgOf, preMultDmg,
    rtsrActive, maxHpOf, weaponsOf, hic, hsc, hf1, hm, hf2, hty, hsA,
    battleSt, hostP, aiP, L1, w_zweihander, st0, junkItem, junkPlayer,
    createPlayer, BASE_STATS, INITIAL_SOULS]

/-- The AI's unarmed counter-attack: 15 damage, no crit, host falls to
85 hp. -/
lemma turnB (r : ℕ) (sp sa : ℤ) (wp : ℕ) :
    applyEvent (battleSt r sp sa wp 100 40 [L1] 1) (.turn 0 (1/2)) =
    battleSt r sp sa wp 85 40 [L1, L2] 0 := by
  have hf1 : ((15 : ℚ)).floor = (15 : ℤ) := ratFloor_eqInt _ _ (by norm_num)
  have hm : ((1 : ℤ) ⊔ 15) = 15 := by norm_num
  have hic : isCrit 10 (1/2) = false := by
    simp only [isCrit, decide_eq_false_iff_not, not_lt]
    norm_num
  have hsB : "使用 " ++ "空手" ++ " 攻击了" = "使用 空手 攻击了" := rfl
  norm_num [applyEvent, executeTurn, turnDamage, rawDmgOf, preMultDmg,
    rtsrActive, maxHpOf, weaponsOf, hic, hf1, hm, hsB, battleSt, hostP, aiP,
    L1, L2, w_zweihander, st0, junkItem, junkPlayer, createPlayer,
    BASE_STATS, INITIAL_SOULS]

/-- The host's killing blow: the AI drops to −20 hp, the round ends with
round winner `"p1"`. -/
lemma turnC (r : ℕ) (sp sa : ℤ) (wp : ℕ) :
    applyEvent (battleSt r sp sa wp 85 40 [L1, L2] 0) (.turn 0 0) =
    rrSt r sp sa wp := by
  have hf1 : ((40 : ℚ)).floor = (40 : ℤ) := ratFloor_eqInt _ _ (by norm_num)
  have hf2 : ((60 : ℚ)).floor = (60 : ℤ) := ratFloor_eqInt _ _ (by norm_num)
  have hm : ((1 : ℤ) ⊔ 40) = 40 := by norm_num
  have hsc : strContains "双手巨剑" "月光" = false := by decide
  have hic : isCrit 10 0 = true := by
    simp only [isCrit, decide_eq_true_eq]
    norm_num
  have hty : ¬(ItemType.WEAPON = ItemType.SPELL) := by decide
  have hsA : "使用 " ++ "双手巨剑" ++ " 攻击了" = "使用 双手巨剑 攻击了" := rfl
  have hsD : "暗灵 Gemini" ++ " 死亡。" = "暗灵 Gemini 死亡。" := rfl
  norm_num [applyEvent, executeTurn, turnDamage, rawDmgOf, preMultDmg,
    rtsrActive, maxHpOf, weaponsOf, hic, hsc, hf1, hm, hf2, hty, hsA, hsD,
    battleSt, rrSt, hostP, aiP, L1, L2, L3, L4, w_zweihander, st0, junkItem,
    junkPlayer, createPlayer, BASE_STATS, INITIAL_SOULS]

lemma run_badTrace : runEvents badTrace = cs15 := by
  have s1 : applyEvent initialState .login = cs1 := rfl
  have s2 : applyEvent cs1 (.createPVE "p1" "me" "42") = cs2 := rfl
  have s3 : applyEvent cs2 (.actionBuy "p1" "w_zweihander") = cs3 := rfl
  have s4 : applyEvent cs3 (.actionReady "p1") = cs4 := rfl
  have s5 : applyEvent cs4 (.startBattle []) =
      battleSt 1 1500 3000 0 100 100 [] 0 := rfl
  have s9 : applyEvent (rrSt 1 1500 3000 0) .nextRound = cs9 := rfl
  have s10 : applyEvent cs9 (.actionReady "p1") = cs10 := rfl
  have s11 : applyEvent cs10 (.startBattle []) =
      battleSt 2 3500 4000 1 100 100 [] 0 := rfl
  have s15 : applyEvent (rrSt 2 3500 4000 1) .nextRound = cs15 := rfl
  simp only [runEvents, badTrace, List.foldl_cons, List.foldl_nil,
    s1, s2, s3, s4, s5, turnA, turnB, turnC, s9, s10, s11, s15]

/-- Every concrete replay stays inside the host-transition relation. -/
lemma reflTransGen_foldl (l : List HostEvent) (s : GameState) :
    Relation.ReflTransGen HostStep s (l.foldl applyEvent s) := by
  induction l generalizing s with
  | nil => exact Relation.ReflTransGen.refl
  | cons e rest ih =>
    exact Relation.ReflTransGen.head ⟨e, rfl⟩ (ih (applyEvent s e))

lemma reachable_runEvents (l : List HostEvent) : Reachable (runEvents l) :=
  reflTransGen_foldl l initialState

/-- **C3 counterexample.** A reachable GAME_OVER state (a finished PVE
best-of-3 match) whose `roundWinnerId` is still non-null although the phase
is not ROUND_RESULT: the claimed "round-winner non-null iff phase is
ROUND_RESULT" fails on the code. -/
theorem roundWinner_nonnull_outside_round_result :
    Reachable (runEvents badTrace) ∧
    (runEvents badTrace).roundWinnerId ≠ none ∧
    (runEvents badTrace).phase ≠ GamePhase.ROUND_RESULT := by
  refine ⟨reachable_runEvents badTrace, ?_, ?_⟩ <;>
    rw [run_badTrace] <;> simp [cs15]

end SoulsArena
